import Mathlib

/-
Verification development for the RwSpinLock reader-writer spin lock
(Windows_RwSpinLock.hpp / Windows_RwSpinLock.tcc, templated variant).

The lock's entire persistent state is one signed integer cell of a
compile-time width w (16, 32 or 64 bits): 0 = unowned, -1 = owned
exclusively, k >= 1 = k shared readers.  We embed the cell as an `Int`
together with an explicit two's-complement reduction `wrap w` applied
wherever the C++ code performs arithmetic in the state type, so that
overflow behaves as the machine does.

The try-once primitives are embedded in a two-phase form: `s1` is the
value seen by the initial (plain or no-fence) read, `s2` the value the
interlocked compare-exchange actually finds.  The sequential versions
instantiate `s1 = s2`.  The spinning wrappers are embedded as
fuel-indexed loops over an attempt oracle `tryf : Nat -> Int -> Bool x Int`
(attempt index -> current state -> (success, new state)), a deadline
oracle `dl : Nat -> Bool` standing for the `GetTickCount64 () < t`
comparisons, mirroring the control flow of the source line by line.
-/

namespace RwSpinLock

/-- Two's-complement reduction of an integer to a signed width-w value,
the effect of storing an out-of-range result into the `StateType` cell. -/
def wrap (w : Nat) (x : Int) : Int :=
  (x + 2 ^ (w - 1)) % 2 ^ w - 2 ^ (w - 1)

/-- Result of a try-once primitive: the boolean it returns, the state the
cell holds afterwards, and whether an interlocked read-modify-write was
issued on the bus. -/
structure TryOut where
  ok : Bool
  state : Int
  rmw : Bool
deriving DecidableEq, Repr

/-- TryAcquireExclusive, two-phase: `return state == 0 &&
InterlockedCompareExchange (&state, -1, 0) == 0;`.  `s1` is the plain
short-circuit read, `s2` the value the CAS finds. -/
def tryExclusive2 (s1 s2 : Int) : TryOut :=
  if s1 = 0 then
    if s2 = 0 then ⟨true, -1, true⟩ else ⟨false, s2, true⟩
  else ⟨false, s2, false⟩

/-- TryAcquireShared, two-phase: `auto s = state; return s != -1 &&
InterlockedCompareExchange (&state, s + 1, s) == s;`.  The desired value
`s + 1` is stored at the state width, hence the `wrap`. -/
def tryShared2 (w : Nat) (s1 s2 : Int) : TryOut :=
  if s1 = -1 then ⟨false, s2, false⟩
  else
    if s2 = s1 then ⟨true, wrap w (s1 + 1), true⟩ else ⟨false, s2, true⟩

/-- TryUpgradeToExclusive, two-phase: `return state == 1 &&
InterlockedCompareExchange (&state, -1, 1) == 1;`. -/
def tryUpgrade2 (s1 s2 : Int) : TryOut :=
  if s1 = 1 then
    if s2 = 1 then ⟨true, -1, true⟩ else ⟨false, s2, true⟩
  else ⟨false, s2, false⟩

/-- TryAcquireExclusive with no interference between the read and the CAS. -/
def TryAcquireExclusive (s : Int) : TryOut := tryExclusive2 s s

/-- TryAcquireShared with no interference between the read and the CAS. -/
def TryAcquireShared (w : Nat) (s : Int) : TryOut := tryShared2 w s s

/-- TryUpgradeToExclusive with no interference between the read and the CAS. -/
def TryUpgradeToExclusive (s : Int) : TryOut := tryUpgrade2 s s

/-- ReleaseExclusive: `InterlockedExchange (&state, 0)` - the new cell value. -/
def ReleaseExclusive (_s : Int) : Int := 0

/-- ReleaseShared: `InterlockedDecrement (&state)` - the new cell value,
at the state width. -/
def ReleaseShared (w : Nat) (s : Int) : Int := wrap w (s - 1)

/-- DowngradeToShared: `InterlockedExchange (&state, 1)` - the new cell value. -/
def DowngradeToShared (_s : Int) : Int := 1

/-- ForceUnlock: `return this->ReleaseExclusive ();`. -/
def ForceUnlock (s : Int) : Int := ReleaseExclusive s

/-- Per-mode tuning constants of the adaptive backoff schedule
(`struct Parameters`). -/
structure Timings where
  Yields : Nat
  Sleep0s : Nat
deriving DecidableEq, Repr

/-- Parameters::Exclusive. -/
def Parameters.Exclusive : Timings := ⟨125, 2⟩

/-- Parameters::Shared. -/
def Parameters.Shared : Timings := ⟨120, 7⟩

/-- Parameters::Upgrade. -/
def Parameters.Upgrade : Timings := ⟨27, 100⟩

/-- Spin: the duration passed to `Sleep` in one backoff step
(`DWORD n = 0; if (round > Yields + Sleep0s) n = 1; Sleep (n);`). -/
def Spin (T : Timings) (round : Nat) : Nat :=
  if round > T.Yields + T.Sleep0s then 1 else 0

/-- Increment of the `std::uint32_t r` round counter, wrapping at 2^32. -/
def inc32 (r : Nat) : Nat := (r + 1) % 2 ^ 32

/-- Effect of `if (rounds) { *rounds = r; }`: the value written through the
out-pointer, `none` when the pointer is null. -/
def writeRounds (hasRounds : Bool) (r : Nat) : Option Nat :=
  if hasRounds then some r else none

/-- Observable outcome of one acquire call: the boolean it returns, the
final value of `r`, what was written through the `rounds` out-pointer,
the number of `YieldProcessor` hints emitted, the list of `Sleep`
durations performed by `Spin`, whether the contested inner loop was
entered, and the final lock state. -/
structure AcqOut where
  ok : Bool
  r : Nat
  rounds : Option Nat
  yields : Nat
  sleeps : List Nat
  contested : Bool
  state : Int
deriving DecidableEq, Repr

/-- The contested inner loop of the timed acquires:
`while (!Try ()) { if (GetTickCount64 () < t) { Spin (++r); } else {
if (rounds) *rounds = r; return false; } }` followed, on success, by
`break;` out of the outer loop into the common
`if (rounds) *rounds = r; return true;` exit.  `a` is the global
attempt index fed to the try oracle, `j` indexes the clock comparisons,
`y` carries the yield count of the earlier phase, and `fuel` bounds the
number of iterations that can be evaluated (`none` = fuel exhausted,
i.e. the run would spin longer than the bound). -/
def contestedLoop (tryf : Nat → Int → Bool × Int) (dl : Nat → Bool)
    (T : Timings) (hR : Bool) :
    Nat → Nat → Nat → Nat → Nat → Int → Option AcqOut
  | 0, _, _, _, _, _ => none
  | fuel + 1, a, r, j, y, s =>
    match tryf a s with
    | (true, s1) => some ⟨true, r, writeRounds hR r, y, [], true, s1⟩
    | (false, s1) =>
      if dl j then
        match contestedLoop tryf dl T hR fuel (a + 1) (inc32 r) (j + 1) y s1 with
        | none => none
        | some o => some { o with sleeps := Spin T (inc32 r) :: o.sleeps }
      else
        some ⟨false, r, writeRounds hR r, y, [], true, s1⟩

/-- The timed acquire loop shared by `AcquireExclusive (timeout, rounds)`,
`AcquireShared (timeout, rounds)` and `UpgradeToExclusive (timeout, rounds)`:
`while (!Try ()) { if (++r <= Yields) { YieldProcessor (); } else {
if (timeout) { t = GetTickCount64 () + timeout; SwitchToThread ();
<contested loop> } break; } } if (rounds) *rounds = r; return true;`.
Note that when `timeout == 0` the `break` falls through to `return true`. -/
def timedAux (tryf : Nat → Int → Bool × Int) (dl : Nat → Bool)
    (T : Timings) (timeout : Nat) (hR : Bool) :
    Nat → Nat → Nat → Nat → Int → Option AcqOut
  | 0, _, _, _, _ => none
  | fuel + 1, a, r, y, s =>
    match tryf a s with
    | (true, s1) => some ⟨true, r, writeRounds hR r, y, [], false, s1⟩
    | (false, s1) =>
      if inc32 r ≤ T.Yields then
        timedAux tryf dl T timeout hR fuel (a + 1) (inc32 r) (y + 1) s1
      else
        if timeout ≠ 0 then
          contestedLoop tryf dl T hR fuel (a + 1) (inc32 r) 0 y s1
        else
          some ⟨true, inc32 r, writeRounds hR (inc32 r), y, [], false, s1⟩

/-- The indefinite acquire loop shared by `AcquireExclusive (rounds)`,
`AcquireShared (rounds)` and `UpgradeToExclusive (rounds)`:
`while (!Try ()) { if (++r <= Yields) { YieldProcessor (); } else {
Spin (r); } } if (rounds) *rounds = r;`. -/
def indefAux (tryf : Nat → Int → Bool × Int) (T : Timings) (hR : Bool) :
    Nat → Nat → Nat → Nat → Int → Option AcqOut
  | 0, _, _, _, _ => none
  | fuel + 1, a, r, y, s =>
    match tryf a s with
    | (true, s1) => some ⟨true, r, writeRounds hR r, y, [], false, s1⟩
    | (false, s1) =>
      if inc32 r ≤ T.Yields then
        indefAux tryf T hR fuel (a + 1) (inc32 r) (y + 1) s1
      else
        match indefAux tryf T hR fuel (a + 1) (inc32 r) y s1 with
        | none => none
        | some o => some { o with sleeps := Spin T (inc32 r) :: o.sleeps }

/-- AcquireExclusive (timeout, rounds) with the mode's try-once primitive
running without interference from other threads. -/
def AcquireExclusiveTimed (dl : Nat → Bool) (timeout : Nat) (hR : Bool)
    (fuel : Nat) (s : Int) : Option AcqOut :=
  timedAux (fun _ s1 => ((TryAcquireExclusive s1).ok, (TryAcquireExclusive s1).state))
    dl Parameters.Exclusive timeout hR fuel 0 0 0 s

/-- AcquireShared (timeout, rounds) with the mode's try-once primitive
running without interference from other threads. -/
def AcquireSharedTimed (w : Nat) (dl : Nat → Bool) (timeout : Nat) (hR : Bool)
    (fuel : Nat) (s : Int) : Option AcqOut :=
  timedAux (fun _ s1 => ((TryAcquireShared w s1).ok, (TryAcquireShared w s1).state))
    dl Parameters.Shared timeout hR fuel 0 0 0 s

/-- UpgradeToExclusive (timeout, rounds) with the mode's try-once primitive
running without interference from other threads. -/
def UpgradeToExclusiveTimed (dl : Nat → Bool) (timeout : Nat) (hR : Bool)
    (fuel : Nat) (s : Int) : Option AcqOut :=
  timedAux (fun _ s1 => ((TryUpgradeToExclusive s1).ok, (TryUpgradeToExclusive s1).state))
    dl Parameters.Upgrade timeout hR fuel 0 0 0 s

/-- The operations of the lock's API that change the state cell. -/
inductive Op
  | tryExcl
  | tryShr
  | tryUpg
  | relExcl
  | relShr
  | downgrade
  | fUnlock
deriving DecidableEq, Repr

/-- State-cell effect of one operation, exactly as the code performs it
(the try operations leave the cell unchanged when they fail; the release
operations are unconditional writes). -/
def stepOp (w : Nat) : Op → Int → Int
  | .tryExcl, s => (TryAcquireExclusive s).state
  | .tryShr, s => (TryAcquireShared w s).state
  | .tryUpg, s => (TryUpgradeToExclusive s).state
  | .relExcl, s => ReleaseExclusive s
  | .relShr, s => ReleaseShared w s
  | .downgrade, s => DowngradeToShared s
  | .fUnlock, s => ForceUnlock s

/-- State of the cell after a sequence of operations. -/
def runOps (w : Nat) (l : List Op) (s : Int) : Int :=
  l.foldl (fun t op => stepOp w op t) s

/-- Proper-use precondition of an operation, from the spec's state
machine: releases, downgrade and force-unlock are only issued by a
holder of the corresponding ownership; the try operations guard
themselves. -/
def properAt (op : Op) (s : Int) : Bool :=
  match op with
  | .tryExcl => true
  | .tryShr => true
  | .tryUpg => true
  | .relExcl => s == -1
  | .relShr => decide (1 ≤ s)
  | .downgrade => s == -1
  | .fUnlock => s == -1

/-- States reachable from the unowned state 0 by properly-used operations
that never apply TryAcquireShared at the width's maximum value. -/
inductive ReachesOK (w : Nat) : Int → Prop
  | init : ReachesOK w 0
  | step (op : Op) (s : Int) : ReachesOK w s → properAt op s = true →
      (op = Op.tryShr → s ≠ 2 ^ (w - 1) - 1) → ReachesOK w (stepOp w op s)

/-- The state set claimed by the spec: -1 or a shared count between 0 and
MAX, the positive range of the width. -/
def validState (w : Nat) (s : Int) : Prop :=
  s = -1 ∨ (0 ≤ s ∧ s < 2 ^ (w - 1))

/-- The three guard kinds whose destructor releases the lock, with the
release operation each performs. -/
inductive GuardKind
  | exclusive
  | upgraded
  | shared
deriving DecidableEq, Repr

/-- Release operation of a guard kind: RwSpinLockScopeExclusive::release
calls ReleaseExclusive, RwSpinLockScopeUpgraded::release calls
DowngradeToShared, RwSpinLockScopeShared::release calls ReleaseShared. -/
def guardRelease (w : Nat) : GuardKind → Int → Int
  | .exclusive, s => ReleaseExclusive s
  | .upgraded, s => DowngradeToShared s
  | .shared, s => ReleaseShared w s

/-- A scope guard's own state: whether its `lock` pointer is non-null. -/
structure Scope where
  lock : Bool
deriving DecidableEq, Repr

/-- Guard destructor: `if (this->lock) { this->release (); }`.  Returns
the lock state afterwards and the number of release operations performed. -/
def scopeDtor (w : Nat) (k : GuardKind) (g : Scope) (s : Int) : Int × Nat :=
  if g.lock then (guardRelease w k s, 1) else (s, 0)

/-- Guard move constructor: `lock (from.lock) { from.lock = nullptr; }`.
Returns (the new guard, the source after the move). -/
def scopeMoveCtor (g : Scope) : Scope × Scope := (⟨g.lock⟩, ⟨false⟩)

/-- Guard manual release: `this->lock->Release... (); this->lock = nullptr;`.
The source dereferences `lock` without a null check ("not checking for
null to early catch bugs"); the null dereference is modelled as `none`. -/
def scopeRelease (w : Nat) (k : GuardKind) (g : Scope) (s : Int) :
    Option (Scope × Int) :=
  if g.lock then some (⟨false⟩, guardRelease w k s) else none

/-- Effect of an indefinite AcquireShared with no concurrent interference:
the first TryAcquireShared succeeds unless the lock is held exclusively,
in which case the spin loop never terminates (`none`). -/
def acquireSharedUncontended (w : Nat) (s : Int) : Option Int :=
  if s = -1 then none else some (wrap w (s + 1))

/-- Shared guard copy constructor:
`lock (from.lock) { this->lock->AcquireShared (); }` - the copied pointer
is dereferenced without a null check; `none` models the null dereference
when the source guard is inactive. -/
def sharedCopyCtor (w : Nat) (g : Scope) (s : Int) : Option (Scope × Int) :=
  if g.lock then (acquireSharedUncontended w s).map (fun s2 => (⟨true⟩, s2))
  else none

/-- Shared guard copy assignment: `if (this->lock) { this->release (); }
this->lock = from.lock; if (this->lock) { this->lock->AcquireShared (); }`
- both dereferences are guarded by null checks. -/
def sharedCopyAssign (w : Nat) (dst src : Scope) (s : Int) :
    Option (Scope × Int) :=
  let s1 := if dst.lock then ReleaseShared w s else s
  if src.lock then (acquireSharedUncontended w s1).map (fun s2 => (⟨true⟩, s2))
  else some (⟨false⟩, s1)

/-- Demonstration try oracle for concrete runs: the attempt with index 1
succeeds, every other attempt fails, the state is never disturbed. -/
def tfDemo : Nat → Int → Bool × Int := fun a s => (a == 1, s)

/-- Demonstration deadline oracle: the deadline is already past at every
clock comparison. -/
def dlDemo : Nat → Bool := fun _ => false

end RwSpinLock

open RwSpinLock

theorem two_pow_split (w : Nat) (hw : 1 ≤ w) :
    (2 : Int) ^ w = 2 ^ (w - 1) * 2 := by
  obtain ⟨v, rfl⟩ : ∃ v, w = v + 1 := ⟨w - 1, (Nat.succ_pred_eq_of_pos hw).symm⟩
  simp [pow_succ]

theorem wrap_eq_of_mem (w : Nat) (hw : 1 ≤ w) (x : Int)
    (h1 : -(2 ^ (w - 1) : Int) ≤ x) (h2 : x < 2 ^ (w - 1)) :
    wrap w x = x := by
  unfold wrap
  have h0 : (0 : Int) ≤ x + 2 ^ (w - 1) := by linarith
  have hlt : x + 2 ^ (w - 1) < 2 ^ w := by rw [two_pow_split w hw]; linarith
  rw [Int.emod_eq_of_lt h0 hlt]; ring

theorem wrap_top (w : Nat) (hw : 1 ≤ w) :
    wrap w (2 ^ (w - 1)) = -(2 ^ (w - 1) : Int) := by
  unfold wrap
  have h : (2 : Int) ^ (w - 1) + 2 ^ (w - 1) = 2 ^ w := by
    rw [two_pow_split w hw]; ring
  rw [h, Int.emod_self]; ring

theorem two_le_half_pow (w : Nat) (hw : 2 ≤ w) :
    (2 : Int) ≤ 2 ^ (w - 1) := by
  calc (2 : Int) = 2 ^ 1 := (pow_one 2).symm
  _ ≤ 2 ^ (w - 1) := pow_le_pow_right₀ (by norm_num) (by omega)

theorem contestedLoop_some (tryf : Nat → Int → Bool × Int) (dl : Nat → Bool)
    (T : Timings) (hR : Bool) :
    ∀ fuel a r j y s o, contestedLoop tryf dl T hR fuel a r j y s = some o →
      o.rounds = writeRounds hR o.r ∧ o.contested = true := by
  intro fuel
  induction fuel with
  | zero => intro a r j y s o h; simp [contestedLoop] at h
  | succ n ih =>
    intro a r j y s o h
    simp only [contestedLoop] at h
    rcases htf : tryf a s with ⟨b, s1⟩
    rw [htf] at h
    cases b with
    | true =>
      simp only [Option.some.injEq] at h
      subst h
      exact ⟨rfl, rfl⟩
    | false =>
      simp only at h
      by_cases hdl : dl j
      · rw [if_pos hdl] at h
        rcases hrec : contestedLoop tryf dl T hR n (a + 1) (inc32 r) (j + 1) y s1 with _ | o1
        · rw [hrec] at h; simp at h
        · rw [hrec] at h
          simp only [Option.some.injEq] at h
          subst h
          obtain ⟨h1, h2⟩ := ih (a + 1) (inc32 r) (j + 1) y s1 o1 hrec
          exact ⟨h1, h2⟩
      · rw [if_neg hdl] at h
        simp only [Option.some.injEq] at h
        subst h
        exact ⟨rfl, rfl⟩

theorem contestedLoop_fail_state (tryf : Nat → Int → Bool × Int) (dl : Nat → Bool)
    (T : Timings) (hR : Bool)
    (hpres : ∀ a s1, (tryf a s1).1 = false → (tryf a s1).2 = s1) :
    ∀ fuel a r j y s o, contestedLoop tryf dl T hR fuel a r j y s = some o →
      o.ok = false → o.state = s := by
  intro fuel
  induction fuel with
  | zero => intro a r j y s o h; simp [contestedLoop] at h
  | succ n ih =>
    intro a r j y s o h hok
    simp only [contestedLoop] at h
    rcases htf : tryf a s with ⟨b, s1⟩
    rw [htf] at h
    cases b with
    | true =>
      simp only [Option.some.injEq] at h
      subst h
      simp at hok
    | false =>
      have hs1 : s1 = s := by
        have := hpres a s
        rw [htf] at this
        simpa using this rfl
      subst hs1
      simp only at h
      by_cases hdl : dl j
      · rw [if_pos hdl] at h
        rcases hrec : contestedLoop tryf dl T hR n (a + 1) (inc32 r) (j + 1) y s1 with _ | o1
        · rw [hrec] at h; simp at h
        · rw [hrec] at h
          simp only [Option.some.injEq] at h
          subst h
          exact ih (a + 1) (inc32 r) (j + 1) y s1 o1 hrec hok
      · rw [if_neg hdl] at h
        simp only [Option.some.injEq] at h
        subst h
        rfl

theorem timedAux_some (tryf : Nat → Int → Bool × Int) (dl : Nat → Bool)
    (T : Timings) (timeout : Nat) (hR : Bool) :
    ∀ fuel a r y s o, timedAux tryf dl T timeout hR fuel a r y s = some o →
      o.rounds = writeRounds hR o.r := by
  intro fuel
  induction fuel with
  | zero => intro a r y s o h; simp [timedAux] at h
  | succ n ih =>
    intro a r y s o h
    simp only [timedAux] at h
    rcases htf : tryf a s with ⟨b, s1⟩
    rw [htf] at h
    cases b with
    | true =>
      simp only [Option.some.injEq] at h
      subst h
      rfl
    | false =>
      simp only at h
      by_cases hy : inc32 r ≤ T.Yields
      · rw [if_pos hy] at h
        exact ih (a + 1) (inc32 r) (y + 1) s1 o h
      · rw [if_neg hy] at h
        by_cases ht : timeout ≠ 0
        · rw [if_pos ht] at h
          exact (contestedLoop_some tryf dl T hR n (a + 1) (inc32 r) 0 y s1 o h).1
        · rw [if_neg ht] at h
          simp only [Option.some.injEq] at h
          subst h
          rfl

theorem timedAux_fail_state (tryf : Nat → Int → Bool × Int) (dl : Nat → Bool)
    (T : Timings) (timeout : Nat) (hR : Bool)
    (hpres : ∀ a s1, (tryf a s1).1 = false → (tryf a s1).2 = s1) :
    ∀ fuel a r y s o, timedAux tryf dl T timeout hR fuel a r y s = some o →
      o.ok = false → o.state = s := by
  intro fuel
  induction fuel with
  | zero => intro a r y s o h; simp [timedAux] at h
  | succ n ih =>
    intro a r y s o h hok
    simp only [timedAux] at h
    rcases htf : tryf a s with ⟨b, s1⟩
    rw [htf] at h
    cases b with
    | true =>
      simp only [Option.some.injEq] at h
      subst h
      simp at hok
    | false =>
      have hs1 : s1 = s := by
        have := hpres a s
        rw [htf] at this
        simpa using this rfl
      subst hs1
      simp only at h
      by_cases hy : inc32 r ≤ T.Yields
      · rw [if_pos hy] at h
        exact ih (a + 1) (inc32 r) (y + 1) s1 o h hok
      · rw [if_neg hy] at h
        by_cases ht : timeout ≠ 0
        · rw [if_pos ht] at h
          exact contestedLoop_fail_state tryf dl T hR hpres n (a + 1) (inc32 r) 0 y s1 o h hok
        · rw [if_neg ht] at h
          simp only [Option.some.injEq] at h
          subst h
          simp at hok

theorem indefAux_some (tryf : Nat → Int → Bool × Int) (T : Timings) (hR : Bool) :
    ∀ fuel a r y s o, indefAux tryf T hR fuel a r y s = some o →
      o.ok = true ∧ o.rounds = writeRounds hR o.r := by
  intro fuel
  induction fuel with
  | zero => intro a r y s o h; simp [indefAux] at h
  | succ n ih =>
    intro a r y s o h
    simp only [indefAux] at h
    rcases htf : tryf a s with ⟨b, s1⟩
    rw [htf] at h
    cases b with
    | true =>
      simp only [Option.some.injEq] at h
      subst h
      exact ⟨rfl, rfl⟩
    | false =>
      simp only at h
      by_cases hy : inc32 r ≤ T.Yields
      · rw [if_pos hy] at h
        exact ih (a + 1) (inc32 r) (y + 1) s1 o h
      · rw [if_neg hy] at h
        rcases hrec : indefAux tryf T hR n (a + 1) (inc32 r) y s1 with _ | o1
        · rw [hrec] at h; simp at h
        · rw [hrec] at h
          simp only [Option.some.injEq] at h
          subst h
          exact ih (a + 1) (inc32 r) y s1 o1 hrec

/-- C1: the claim says a timed acquire with timeout = 0 on a permanently
contended lock returns false after at most Yields processor-yield rounds,
without sleeping and without entering the contested inner loop.  The
code indeed performs exactly Yields yields, no sleeps, and never enters
the contested loop - but then `break` falls through to `return true`:
each of the three timed acquires reports success (ok = true) although
the lock is still exclusively owned (state still -1), contradicting the
claim and the function's own documentation ("returns true on success
and false on timeout"). -/
theorem claim_C1 :
    AcquireExclusiveTimed dlDemo 0 true 200 (-1)
      = some ⟨true, 126, some 126, 125, [], false, -1⟩
  ∧ AcquireSharedTimed 16 dlDemo 0 true 200 (-1)
      = some ⟨true, 121, some 121, 120, [], false, -1⟩
  ∧ UpgradeToExclusiveTimed dlDemo 0 true 200 (-1)
      = some ⟨true, 28, some 28, 27, [], false, -1⟩ := by
  refine ⟨by decide, by decide, by decide⟩

/-- C3: TryAcquireExclusive returns false with no read-modify-write when
the short-circuit read sees a non-zero state; otherwise it issues
CAS(0, -1) and returns true exactly when the prior value was 0, making
the state -1; every failing path leaves the state unmodified. -/
theorem claim_C3 (s1 s2 : Int) :
    (s1 ≠ 0 → tryExclusive2 s1 s2 = ⟨false, s2, false⟩)
  ∧ (s1 = 0 → (tryExclusive2 s1 s2).rmw = true
      ∧ ((tryExclusive2 s1 s2).ok = true ↔ s2 = 0)
      ∧ (s2 = 0 → tryExclusive2 s1 s2 = ⟨true, -1, true⟩)
      ∧ (s2 ≠ 0 → tryExclusive2 s1 s2 = ⟨false, s2, true⟩)) := by
  constructor
  · intro h1
    simp [tryExclusive2, h1]
  · intro h1
    subst h1
    by_cases h2 : s2 = 0 <;> simp [tryExclusive2, h2]

/-- C3 witness: the theorem applied at the concrete inputs (5, 7)
and (0, 0). -/
theorem claim_C3_witness :
    tryExclusive2 5 7 = ⟨false, 7, false⟩
  ∧ tryExclusive2 0 0 = ⟨true, -1, true⟩ :=
  ⟨(claim_C3 5 7).1 (by norm_num), ((claim_C3 0 0).2 rfl).2.2.1 rfl⟩

/-- C5: TryUpgradeToExclusive returns false with no state change when the
observed state is not exactly 1; when it is 1, CAS(1, -1) is issued and
the call returns true exactly when the prior value was 1, making the
state -1. -/
theorem claim_C5 (s1 s2 : Int) :
    (s1 ≠ 1 → tryUpgrade2 s1 s2 = ⟨false, s2, false⟩)
  ∧ (s1 = 1 → (tryUpgrade2 s1 s2).rmw = true
      ∧ ((tryUpgrade2 s1 s2).ok = true ↔ s2 = 1)
      ∧ (s2 = 1 → tryUpgrade2 s1 s2 = ⟨true, -1, true⟩)
      ∧ (s2 ≠ 1 → tryUpgrade2 s1 s2 = ⟨false, s2, true⟩)) := by
  constructor
  · intro h1
    simp [tryUpgrade2, h1]
  · intro h1
    subst h1
    by_cases h2 : s2 = 1 <;> simp [tryUpgrade2, h2]

/-- C5 witness: the theorem applied at the concrete inputs (2, 2)
and (1, 1). -/
theorem claim_C5_witness :
    tryUpgrade2 2 2 = ⟨false, 2, false⟩
  ∧ tryUpgrade2 1 1 = ⟨true, -1, true⟩ :=
  ⟨(claim_C5 2 2).1 (by norm_num), ((claim_C5 1 1).2 rfl).2.2.1 rfl⟩

/-- C6: ReleaseExclusive and its alias ForceUnlock unconditionally set the
state to 0, whatever it was (including the state -1 of a hung exclusive
holder), and the next TryAcquireExclusive on the idle lock then
succeeds, taking the state to -1. -/
theorem claim_C6 (s : Int) :
    ReleaseExclusive s = 0
  ∧ ForceUnlock s = ReleaseExclusive s
  ∧ ForceUnlock s = 0
  ∧ TryAcquireExclusive (ForceUnlock s) = ⟨true, -1, true⟩ :=
  ⟨rfl, rfl, rfl, rfl⟩

/-- C9: each guard kind's destructor performs its release operation
(ReleaseExclusive, DowngradeToShared or ReleaseShared) exactly when the
guard is still active; the move constructor nulls the source so the
moved-from guard's destructor performs nothing; a manually released
guard is inert on destruction - so an active guard is released exactly
once along each of the paths destroy, move-then-destroy-both, and
release-then-destroy. -/
theorem claim_C9 (w : Nat) (k : GuardKind) (s : Int) (g : Scope) :
    scopeDtor w k ⟨true⟩ s = (guardRelease w k s, 1)
  ∧ scopeDtor w k ⟨false⟩ s = (s, 0)
  ∧ scopeMoveCtor g = (⟨g.lock⟩, ⟨false⟩)
  ∧ scopeDtor w k (scopeMoveCtor g).2 s = (s, 0)
  ∧ (scopeDtor w k (scopeMoveCtor ⟨true⟩).2 s).2
      + (scopeDtor w k (scopeMoveCtor ⟨true⟩).1
          ((scopeDtor w k (scopeMoveCtor ⟨true⟩).2 s).1)).2 = 1
  ∧ scopeRelease w k ⟨true⟩ s = some (⟨false⟩, guardRelease w k s)
  ∧ (scopeDtor w k ⟨false⟩ (guardRelease w k s)).2 = 0 :=
  ⟨rfl, rfl, rfl, rfl, rfl, rfl, rfl⟩

/-- C10: release () on an inactive guard dereferences the null lock
pointer (modelled as none), as does copy-constructing a shared guard
from an inactive one; only destruction and the shared guard's copy
assignment null-check first, so an inactive guard is inert under
destruction and under copy assignment from an inactive source. -/
theorem claim_C10 (w : Nat) (k : GuardKind) (s : Int) :
    scopeRelease w k ⟨false⟩ s = none
  ∧ sharedCopyCtor w ⟨false⟩ s = none
  ∧ scopeDtor w k ⟨false⟩ s = (s, 0)
  ∧ sharedCopyAssign w ⟨false⟩ ⟨false⟩ s = some (⟨false⟩, s) :=
  ⟨rfl, rfl, rfl, rfl⟩

/-- C7: from the unowned state, acquire shared takes the state to 1,
upgrade to exclusive to -1, downgrade to shared back to 1, and release
shared back to 0: the round trip is net-neutral. -/
theorem claim_C7 (w : Nat) (hw : 2 ≤ w) :
    TryAcquireShared w 0 = ⟨true, 1, true⟩
  ∧ TryUpgradeToExclusive 1 = ⟨true, -1, true⟩
  ∧ DowngradeToShared (-1) = 1
  ∧ ReleaseShared w 1 = 0 := by
  have hp : (0 : Int) < 2 ^ (w - 1) := by positivity
  have h1 : wrap w 1 = 1 :=
    wrap_eq_of_mem w (by omega) 1 (by linarith)
      (by linarith [two_le_half_pow w hw])
  have h0 : wrap w 0 = 0 :=
    wrap_eq_of_mem w (by omega) 0 (by linarith) hp
  refine ⟨?_, rfl, rfl, ?_⟩
  · show tryShared2 w 0 0 = ⟨true, 1, true⟩
    rw [tryShared2]
    norm_num [h1]
  · show wrap w (1 - 1) = 0
    norm_num [h0]

/-- C7 witness: the theorem applied at the 16-bit width. -/
theorem claim_C7_witness :
    TryAcquireShared 16 0 = ⟨true, 1, true⟩ ∧ ReleaseShared 16 1 = 0 :=
  ⟨(claim_C7 16 (by norm_num)).1, (claim_C7 16 (by norm_num)).2.2.2⟩

/-- C4 counterexample: at the 16-bit width (the default `short`), from the
reachable state MAX = 32767 the read sees 32767, the CAS finds 32767 and
succeeds - but the stored value `s + 1` wraps at the state width, so the
state becomes -32768, not s + 1 = 32768 as the claim states. -/
theorem claim_C4_counterexample :
    tryShared2 16 32767 32767 = ⟨true, -32768, true⟩
  ∧ ((32767 : Int) + 1 ≠ -32768) := by
  refine ⟨by decide, by decide⟩

/-- C4 as amended: TryAcquireShared reads s; if s = -1 it returns false
without a read-modify-write and without modifying the state; otherwise it
issues CAS(s, s + 1) and returns true exactly when the prior value
equalled s, the stored value being s + 1 reduced to the state width
(equal to s + 1 whenever s + 1 is representable); a concurrent change
between the read and the CAS is reported as failure, not retried. -/
theorem claim_C4 (w : Nat) (hw : 1 ≤ w) (s1 s2 : Int) :
    (s1 = -1 → tryShared2 w s1 s2 = ⟨false, s2, false⟩)
  ∧ (s1 ≠ -1 → (tryShared2 w s1 s2).rmw = true
      ∧ ((tryShared2 w s1 s2).ok = true ↔ s2 = s1)
      ∧ (s2 = s1 → tryShared2 w s1 s2 = ⟨true, wrap w (s1 + 1), true⟩)
      ∧ (s2 = s1 → -(2 ^ (w - 1) : Int) ≤ s1 + 1 → s1 + 1 < 2 ^ (w - 1) →
          (tryShared2 w s1 s2).state = s1 + 1)
      ∧ (s2 ≠ s1 → tryShared2 w s1 s2 = ⟨false, s2, true⟩)) := by
  constructor
  · intro h1
    simp [tryShared2, h1]
  · intro h1
    refine ⟨?_, ?_, ?_, ?_, ?_⟩
    · by_cases h2 : s2 = s1 <;> simp [tryShared2, h1, h2]
    · by_cases h2 : s2 = s1 <;> simp [tryShared2, h1, h2]
    · intro h2; simp [tryShared2, h1, h2]
    · intro h2 hlo hhi
      simp [tryShared2, h1, h2, wrap_eq_of_mem w hw (s1 + 1) hlo hhi]
    · intro h2; simp [tryShared2, h1, h2]

/-- C4 witness: the theorem applied at width 16 with inputs (3, 3)
and (-1, 5). -/
theorem claim_C4_witness :
    tryShared2 16 3 3 = ⟨true, wrap 16 4, true⟩
  ∧ tryShared2 16 (-1) 5 = ⟨false, 5, false⟩ :=
  ⟨((claim_C4 16 (by norm_num) 3 3).2 (by norm_num)).2.2.1 rfl,
   (claim_C4 16 (by norm_num) (-1) 5).1 rfl⟩

/-- C8: with a non-null rounds pointer, a terminating timed acquire
writes the final round count through it both when it returns true and
when it returns false on deadline expiry (the written value equals the
returned r), and a terminating indefinite acquire returns successfully
and writes the round count; when a timed acquire fails, every try-once
attempt failed, so if the failing try-once primitive leaves the state
unchanged the whole call leaves the lock state unchanged - failure is
reported only through the boolean result. -/
theorem claim_C8 (T : Timings) (tryf : Nat → Int → Bool × Int)
    (dl : Nat → Bool) (timeout fuel : Nat) (s : Int)
    (hpres : ∀ a s1, (tryf a s1).1 = false → (tryf a s1).2 = s1) :
    (∀ o, timedAux tryf dl T timeout true fuel 0 0 0 s = some o →
        o.rounds = some o.r ∧ (o.ok = false → o.state = s))
  ∧ (∀ o, indefAux tryf T true fuel 0 0 0 s = some o →
        o.ok = true ∧ o.rounds = some o.r) := by
  constructor
  · intro o h
    refine ⟨?_, ?_⟩
    · have := timedAux_some tryf dl T timeout true fuel 0 0 0 s o h
      simpa [writeRounds] using this
    · exact timedAux_fail_state tryf dl T timeout true hpres fuel 0 0 0 s o h
  · intro o h
    obtain ⟨h1, h2⟩ := indefAux_some tryf T true fuel 0 0 0 s o h
    exact ⟨h1, by simpa [writeRounds] using h2⟩

/-- C8 witness: the theorem applied to a concrete oracle whose second
attempt succeeds - the timed acquire terminates with ok = true, r = 1
and rounds written as some 1 - and to a concrete failing timed run
whose deadline expires after three clock checks, which returns
ok = false with rounds written and the state unchanged. -/
theorem claim_C8_witness :
    ((⟨true, 1, some 1, 1, [], false, 7⟩ : AcqOut).rounds = some 1
      ∧ (⟨false, 129, some 129, 125, [0, 1, 1], true, -1⟩ : AcqOut).state = -1) := by
  have h1 := (claim_C8 Parameters.Exclusive tfDemo dlDemo 5 10 7
      (by intro a s1 _; rfl)).1
      ⟨true, 1, some 1, 1, [], false, 7⟩ (by decide)
  have h2 := (claim_C8 Parameters.Exclusive (fun _ s => (false, s))
      (fun j => j < 3) 1 200 (-1) (by intro a s1 _; rfl)).1
      ⟨false, 129, some 129, 125, [0, 1, 1], true, -1⟩ (by decide)
  exact ⟨h1.1, h2.2 rfl⟩

theorem runOps_cons (w : Nat) (op : Op) (l : List Op) (s : Int) :
    runOps w (op :: l) s = runOps w l (stepOp w op s) := rfl

theorem runOps_append (w : Nat) (l1 l2 : List Op) (s : Int) :
    runOps w (l1 ++ l2) s = runOps w l2 (runOps w l1 s) := by
  simp [runOps, List.foldl_append]

theorem stepOp_tryShr_nonneg (w : Nat) (s : Int) (hs : 0 ≤ s) :
    stepOp w Op.tryShr s = wrap w (s + 1) := by
  have h1 : s ≠ -1 := by omega
  simp [stepOp, TryAcquireShared, tryShared2, h1]

theorem runOps_replicate_tryShr (w : Nat) (hw : 1 ≤ w) :
    ∀ (n : Nat) (s : Int), 0 ≤ s → s + n < 2 ^ (w - 1) →
      runOps w (List.replicate n Op.tryShr) s = s + n := by
  intro n
  induction n with
  | zero => intro s h0 h1; simp [runOps]
  | succ m ih =>
    intro s h0 h1
    have hcast : ((m + 1 : Nat) : Int) = (m : Int) + 1 := by push_cast; ring
    rw [hcast] at h1
    have hm0 : (0 : Int) ≤ (m : Int) := by positivity
    have hp : (0 : Int) < 2 ^ (w - 1) := by positivity
    have hlo : -(2 ^ (w - 1) : Int) ≤ s + 1 := by linarith
    have hhi : s + 1 < 2 ^ (w - 1) := by linarith
    rw [List.replicate_succ, runOps_cons, stepOp_tryShr_nonneg w s h0,
      wrap_eq_of_mem w hw (s + 1) hlo hhi,
      ih (s + 1) (by linarith) (by linarith)]
    rw [hcast]; ring

/-- C2 counterexample: at the 16-bit width the state MAX = 32767 is
reachable from 0 by 32767 properly-used TryAcquireShared operations, and
the next TryAcquireShared observes 32767, succeeds (the code checks only
s != -1, not s < MAX), and wraps the counter to -32768, leaving the
claimed set {-1} with {0, ..., 32767}. -/
theorem claim_C2_counterexample :
    runOps 16 (List.replicate 32767 Op.tryShr) 0 = 32767
  ∧ runOps 16 (List.replicate 32768 Op.tryShr) 0 = -32768
  ∧ ¬ validState 16 (-32768)
  ∧ (TryAcquireShared 16 32767).ok = true
  ∧ (TryAcquireShared 16 32767).state = -32768 := by
  have h1 : runOps 16 (List.replicate 32767 Op.tryShr) 0 = 32767 := by
    have h := runOps_replicate_tryShr 16 (by norm_num) 32767 0 (le_refl 0)
      (by norm_num)
    rw [show ((32767 : Nat) : Int) = 32767 from by norm_num, zero_add] at h
    exact h
  refine ⟨h1, ?_, by norm_num [validState], by decide, by decide⟩
  rw [show (32768 : Nat) = 32767 + 1 from rfl, List.replicate_succ',
    runOps_append, h1]
  decide

/-- C2 as amended: starting from 0, every properly-used operation
sequence (releases, downgrade and force-unlock only issued by a holder
of the corresponding ownership) that never applies TryAcquireShared at
state MAX keeps the state in {-1} with {0, ..., MAX}; the claimed guard
"try_shared succeeds only when 1 <= k < MAX" does not exist in the code:
at k = MAX TryAcquireShared succeeds and wraps the count to the width's
minimum value. -/
theorem claim_C2 (w : Nat) (hw : 2 ≤ w) :
    (∀ t, ReachesOK w t → validState w t)
  ∧ (TryAcquireShared w (2 ^ (w - 1) - 1)).ok = true
  ∧ (TryAcquireShared w (2 ^ (w - 1) - 1)).state = -(2 ^ (w - 1) : Int) := by
  have hp2 : (0 : Int) < 2 ^ (w - 1) := by positivity
  have h2h : (2 : Int) ≤ 2 ^ (w - 1) := two_le_half_pow w hw
  refine ⟨?_, ?_, ?_⟩
  · intro t ht
    induction ht with
    | init => exact Or.inr ⟨le_refl 0, hp2⟩
    | step op s hs hp hnm ih =>
      cases op with
      | tryExcl =>
        by_cases h0 : s = 0
        · simp [stepOp, TryAcquireExclusive, tryExclusive2, h0, validState]
        · simpa [stepOp, TryAcquireExclusive, tryExclusive2, h0] using ih
      | tryShr =>
        by_cases hm1 : s = -1
        · simp [stepOp, TryAcquireShared, tryShared2, hm1, validState]
        · rcases ih with h | ⟨hge, hlt⟩
          · exact absurd h hm1
          · have hne : s ≠ 2 ^ (w - 1) - 1 := hnm rfl
            have hs1 : s + 1 < 2 ^ (w - 1) := by
              have hle : s + 1 ≤ 2 ^ (w - 1) := Int.add_one_le_iff.mpr hlt
              rcases lt_or_eq_of_le hle with h' | h'
              · exact h'
              · exact absurd (by linarith) hne
            rw [stepOp_tryShr_nonneg w s hge,
              wrap_eq_of_mem w (by omega) (s + 1) (by linarith) hs1]
            exact Or.inr ⟨by linarith, hs1⟩
      | tryUpg =>
        by_cases h1 : s = 1
        · simp [stepOp, TryUpgradeToExclusive, tryUpgrade2, h1, validState]
        · simpa [stepOp, TryUpgradeToExclusive, tryUpgrade2, h1] using ih
      | relExcl =>
        exact Or.inr ⟨le_refl 0, hp2⟩
      | relShr =>
        have hs1 : (1 : Int) ≤ s := by simpa [properAt] using hp
        rcases ih with h | ⟨hge, hlt⟩
        · exact absurd h (by intro hc; rw [hc] at hs1; norm_num at hs1)
        · show validState w (wrap w (s - 1))
          rw [wrap_eq_of_mem w (by omega) (s - 1) (by linarith) (by linarith)]
          exact Or.inr ⟨by linarith, by linarith⟩
      | downgrade =>
        show validState w 1
        exact Or.inr ⟨by norm_num, by linarith⟩
      | fUnlock =>
        exact Or.inr ⟨le_refl 0, hp2⟩
  · have hne : (2 ^ (w - 1) - 1 : Int) ≠ -1 := by linarith
    simp [TryAcquireShared, tryShared2, hne]
  · have hne : (2 ^ (w - 1) - 1 : Int) ≠ -1 := by linarith
    have harg : (2 ^ (w - 1) - 1 : Int) + 1 = 2 ^ (w - 1) := by ring
    simp [TryAcquireShared, tryShared2, hne, harg, wrap_top w (by omega)]

/-- C2 witness: the theorem applied at the 16-bit width, with the state 1
reached from 0 by one properly-used TryAcquireShared step. -/
theorem claim_C2_witness :
    validState 16 1 ∧ (TryAcquireShared 16 32767).ok = true := by
  have h0 : stepOp 16 Op.tryShr 0 = 1 := by decide
  have h1 : ReachesOK 16 1 :=
    h0 ▸ ReachesOK.step Op.tryShr 0 ReachesOK.init (by decide) (by decide)
  refine ⟨(claim_C2 16 (by norm_num)).1 1 h1, ?_⟩
  have := (claim_C2 16 (by norm_num)).2.1
  simpa using this
